import Mathlib

/-
Verification development for the Hipervisorio_Rebirth process simulators.

Two simulator variants are modelled:
 * `simuladores/Simulador-S7/siemens.py` — the cyclic S7 simulation engine
   (signal generators, stateful aggregators, register block model);
 * `simuladores/Modbus_Simulator.py` — the Modbus holding-register updater.

Numeric convention: Python float arithmetic is idealized over ℚ (Python
floats are a subset of ℚ and the claims under study are about the algorithm,
not about rounding).  `math.sin` and `math.pi` are abstracted into a
`MathLib` record: `math.sin` is an arbitrary function ℚ → ℚ (bounded by 1
in absolute value where a theorem needs it) and `math.pi` an arbitrary
rational, which is faithful to the float library (whose `pi` is a rational
constant and whose `sin` maps floats to floats in [-1, 1]).

Register blocks are byte buffers (`List ℕ`, each entry one byte).  A 32-bit
float travels through a block as its IEEE-754 bit pattern, modelled as a
`ℕ` below `2^32`; `f32ToRat` decodes a finite bit pattern to its exact
rational value and `f32IsNaNOrInf` recognises the NaN/Infinity patterns
(exponent field all ones), mirroring `struct.pack/unpack ">f"` plus
`math.isnan`/`math.isinf`.
-/

namespace Hipervisorio

/-- Abstraction of the float math library used by the simulators. -/
structure MathLib where
  sin : ℚ → ℚ
  pi : ℚ

/-- The property of `math.sin` the proofs rely on: results lie in [-1, 1]. -/
def sinBounded (M : MathLib) : Prop := ∀ x : ℚ, |M.sin x| ≤ 1

namespace S7

/-- Function `_clamp(value, low, high)` from siemens.py: `max(low, min(high, value))`. -/
def _clamp (value low high : ℚ) : ℚ := max low (min high value)

/-- Line 123 of siemens.py: `cycle_s = max(0.05, args.cycle_ms / 1000.0)` —
the only processing the configured cycle interval receives. -/
def cycleSOf (cycleMs : ℤ) : ℚ := max 0.05 ((cycleMs : ℚ) / 1000)

/-- PV power (W), line 133-134: sinusoid of period 60 s clamped to [0, 4500]. -/
def pv (M : MathLib) (now : ℚ) : ℚ :=
  _clamp (3500 * (M.sin (2 * M.pi * now / 60) * 0.5 + 0.5)) 0 4500

/-- DC bus voltage, line 137. -/
def vbus (M : MathLib) (now : ℚ) : ℚ := 620 + 10 * M.sin (2 * M.pi * now / 25)

/-- DC bus current, line 138: `(pv / max(vbus, 1.0)) if pv > 10.0 else 0.0`. -/
def ibus (M : MathLib) (now : ℚ) : ℚ :=
  if pv M now > 10 then pv M now / max (vbus M now) 1 else 0

/-- Inverter output voltage, line 141. -/
def vout (M : MathLib) (now : ℚ) : ℚ := 220 + 2 * M.sin (2 * M.pi * now / 20)

/-- Inverter output current, line 142. -/
def iout (M : MathLib) (now : ℚ) : ℚ :=
  _clamp (pv M now / max (vout M now) 1 / 3) 0 25

/-- Battery voltage, line 145. -/
def vbat (M : MathLib) (now : ℚ) : ℚ := 52.5 + 0.8 * M.sin (2 * M.pi * now / 40)

/-- Load power, line 146. -/
def load_w (M : MathLib) (now : ℚ) : ℚ := 1200 + 300 * M.sin (2 * M.pi * now / 33)

/-- Battery power, line 147: `pv - load_w`. -/
def p_bat (M : MathLib) (now : ℚ) : ℚ := pv M now - load_w M now

/-- Battery current, line 148. -/
def ibat (M : MathLib) (now : ℚ) : ℚ :=
  _clamp (p_bat M now / max (vbat M now) 1) (-80) 80

/-- SoC slew rate, line 151: `soc_speed = 0.02 * (cycle_s / 0.5)`. -/
def socSpeed (cycle_s : ℚ) : ℚ := 0.02 * (cycle_s / 0.5)

/-- SoC target, line 152: `_clamp((vbat - 48.0) / (55.0 - 48.0) * 100.0, 0.0, 100.0)`. -/
def socTarget (vbatV : ℚ) : ℚ := _clamp ((vbatV - 48) / (55 - 48) * 100) 0 100

/-- SoC update, line 159: `soc = soc_now + _clamp(soc_target - soc_now, -soc_speed, soc_speed)`. -/
def socStep (speed socNow target : ℚ) : ℚ :=
  socNow + _clamp (target - socNow) (-speed) speed

/-- Running maximum update, lines 162-163: `if pv > max_power_today: max_power_today = pv`. -/
def maxStep (maxPower pvNow : ℚ) : ℚ := if pvNow > maxPower then pvNow else maxPower

/-- Energy integrator, line 164: `yield_kwh += (pv * dt) / 3_600_000.0`. -/
def yieldStep (yieldKwh pvNow dt : ℚ) : ℚ := yieldKwh + pvNow * dt / 3600000

/-- Cycle time delta, line 128: `dt = max(0.0, now - last_ts)`. -/
def dtOf (now last : ℚ) : ℚ := max 0 (now - last)

/-- Meter phase-R current, line 167. -/
def ir (M : MathLib) (now : ℚ) : ℚ := 12 + 2 * M.sin (2 * M.pi * now / 17)

/-- Meter phase-S current, line 168 (`is_` in the source). -/
def is_ (M : MathLib) (now : ℚ) : ℚ := 11 + 2.3 * M.sin (2 * M.pi * now / 19 + 1)

/-- Meter phase-T current, line 169. -/
def it (M : MathLib) (now : ℚ) : ℚ := 13 + 1.7 * M.sin (2 * M.pi * now / 23 + 2)

/-- Neutral current, line 170: `_clamp(abs(ir + is_ + it) * 0.02, 0.0, 5.0)`. -/
def in_ (M : MathLib) (now : ℚ) : ℚ :=
  _clamp (|ir M now + is_ M now + it M now| * 0.02) 0 5

/-- CB analyzer L1-N current, line 173. -/
def il1n (M : MathLib) (now : ℚ) : ℚ := ir M now + 0.4

/-- CB analyzer L2-N current, line 174. -/
def il2n (M : MathLib) (now : ℚ) : ℚ := is_ M now + 0.2

/-- CB analyzer L3-N current, line 175. -/
def il3n (M : MathLib) (now : ℚ) : ℚ := it M now + 0.3

/-- System power, line 176: `pv - _clamp(load_w, 0.0, 99999.0)`. -/
def psys (M : MathLib) (now : ℚ) : ℚ := pv M now - _clamp (load_w M now) 0 99999

/-- The aggregator state carried across cycles (lines 94-95, plus the SoC
value whose persistence the code realises by reading back the block bytes). -/
structure SimState where
  max_power_today : ℚ
  yield_kwh : ℚ
  soc : ℚ

/-- Startup state: `max_power_today = 0.0`, `yield_kwh = 0.0` (lines 94-95);
the SoC read back from the zero-initialized block decodes to 0. -/
def initState : SimState := ⟨0, 0, 0⟩

/-- The eighteen values one cycle writes into the register blocks
(lines 180-203), one field per written tag. -/
structure CycleOut where
  ibat : ℚ
  vbat : ℚ
  soc : ℚ
  pv : ℚ
  ibus : ℚ
  vbus : ℚ
  max_power_today : ℚ
  yield_kwh : ℚ
  iout : ℚ
  vout : ℚ
  ir : ℚ
  is_ : ℚ
  it : ℚ
  in_ : ℚ
  il1n : ℚ
  il2n : ℚ
  il3n : ℚ
  psys : ℚ

/-- One simulation cycle (lines 131-203): evaluate every generator at `now`,
update the aggregators with slew `socSpeed cycle_s` and delta `dt`, and
collect every value written to the blocks. -/
def cycleStep (M : MathLib) (cycle_s now dt : ℚ) (st : SimState) : CycleOut :=
  { ibat := ibat M now
    vbat := vbat M now
    soc := socStep (socSpeed cycle_s) st.soc (socTarget (vbat M now))
    pv := pv M now
    ibus := ibus M now
    vbus := vbus M now
    max_power_today := maxStep st.max_power_today (pv M now)
    yield_kwh := yieldStep st.yield_kwh (pv M now) dt
    iout := iout M now
    vout := vout M now
    ir := ir M now
    is_ := is_ M now
    it := it M now
    in_ := in_ M now
    il1n := il1n M now
    il2n := il2n M now
    il3n := il3n M now
    psys := psys M now }

/-- The successive SoC values produced by a run: starting value, then one
`socStep` per target in the list. -/
def socSeq (speed : ℚ) : ℚ → List ℚ → List ℚ
  | s, [] => [s]
  | s, t :: ts => s :: socSeq speed (socStep speed s t) ts

/-- Adjacent elements of the list differ by at most `speed` in absolute
value (the slew-limit property of a SoC trajectory). -/
def SlewOk (speed : ℚ) : List ℚ → Prop
  | [] => True
  | [_] => True
  | a :: b :: rest => |b - a| ≤ speed ∧ SlewOk speed (b :: rest)

/-- The energy accumulator after a run over the given cycle-start
timestamps, threading `last_ts` exactly as lines 126-129 and 164 do. -/
def yieldRun (M : MathLib) : ℚ → ℚ → List ℚ → ℚ
  | _, y, [] => y
  | last, y, now :: rest => yieldRun M now (yieldStep y (pv M now) (dtOf now last)) rest

/-- The running maximum after a run over the given cycle-start timestamps. -/
def maxRun (M : MathLib) : ℚ → List ℚ → ℚ
  | m, [] => m
  | m, now :: rest => maxRun M (maxStep m (pv M now)) rest

/-- Function `_db_size_from_offsets(offsets, extra_bytes=16)` from siemens.py:
`max(offsets)` (0 when empty) plus 4 bytes for the REAL plus the slack. -/
def _db_size_from_offsets (offsets : List ℕ) (extra_bytes : ℕ := 16) : ℕ :=
  offsets.foldr max 0 + 4 + extra_bytes

/-- Function `_register_db` allocates the block as a zero-initialized byte array
(`(ctypes.c_uint8 * size)()`); the server registration itself is transport. -/
def _register_db (size : ℕ) : List ℕ := List.replicate size 0

/-- Tag map of DB51 (Bateria_BYD), lines 60-64. -/
def tags51 : List (String × ℕ) := [("Current", 0), ("Voltage", 8), ("Carga_Bateria", 12)]

/-- Tag map of DB50 (Controlador_Carga), lines 65-71. -/
def tags50 : List (String × ℕ) :=
  [("PV_Power_In", 0), ("Current_Bus", 4), ("Voltage_Bus", 8),
   ("Max_Power_Today", 12), ("Yield_Diario", 20)]

/-- Tag map of DB49 (Inversor_Multiplus), lines 72-75. -/
def tags49 : List (String × ℕ) := [("Current_Out", 24), ("Voltage_Out", 28)]

/-- Tag map of DB52 (Medidor_Schneider + Analizador_CB), lines 76-85. -/
def tags52 : List (String × ℕ) :=
  [("Current_R", 0), ("Current_S", 4), ("Current_T", 8), ("Current_N", 12),
   ("Current_L1N", 156), ("Current_L2N", 160), ("Current_L3N", 164), ("Power_Sys", 172)]

/-- Size of DB51 as computed at startup (line 88): offsets 0, 8, 12 → 32 bytes. -/
def db51Size : ℕ := _db_size_from_offsets (tags51.map (fun p => p.2))

/-- Byte at index `i` of a buffer (reads past the end yield 0 only as a
total-function convention; every use below is guarded by a bound). -/
def byteAt (buf : List ℕ) (i : ℕ) : ℕ := (buf[i]?).getD 0

/-- Function `_write_real_be`: `struct.pack_into(">f", db_buffer, byte_offset, value)`,
modelled at the bit level — the four big-endian bytes of the value's 32-bit
pattern `w` land at `byte_offset .. byte_offset+3`. -/
def _write_real_be (buf : List ℕ) (byte_offset w : ℕ) : List ℕ :=
  ((((buf.set byte_offset (w / 2 ^ 24 % 256)).set (byte_offset + 1) (w / 2 ^ 16 % 256)).set
      (byte_offset + 2) (w / 2 ^ 8 % 256)).set (byte_offset + 3) (w % 256))

/-- Decoding `struct.unpack_from(">f", buf, off)` at the bit level: reassemble the
32-bit pattern from the four big-endian bytes at `off .. off+3`. -/
def readF32Word (buf : List ℕ) (off : ℕ) : ℕ :=
  byteAt buf off * 2 ^ 24 + byteAt buf (off + 1) * 2 ^ 16 +
    byteAt buf (off + 2) * 2 ^ 8 + byteAt buf (off + 3)

/-- Sign bit of a 32-bit float pattern. -/
def f32Sign (w : ℕ) : ℕ := w / 2 ^ 31 % 2

/-- Exponent field (8 bits) of a 32-bit float pattern. -/
def f32Exp (w : ℕ) : ℕ := w / 2 ^ 23 % 2 ^ 8

/-- Fraction field (23 bits) of a 32-bit float pattern. -/
def f32Frac (w : ℕ) : ℕ := w % 2 ^ 23

/-- Test `math.isnan(x) or math.isinf(x)` for the decoded float: the pattern's
exponent field is all ones. -/
def f32IsNaNOrInf (w : ℕ) : Bool := f32Exp w == 255

/-- Exact rational value of a finite 32-bit float pattern (IEEE-754:
subnormals scale the fraction by 2^-149, normals prepend the hidden bit). -/
def f32ToRat (w : ℕ) : ℚ :=
  let mag : ℚ :=
    if f32Exp w = 0 then (f32Frac w : ℚ) * (2 : ℚ) ^ (-(149 : ℤ))
    else ((2 ^ 23 + f32Frac w : ℕ) : ℚ) * (2 : ℚ) ^ ((f32Exp w : ℤ) - 150)
  if f32Sign w = 1 then -mag else mag

/-- The SoC seed logic of lines 153-158 applied to the pattern read back at
the `Carga_Bateria` tag: substitute the target when the decode is
NaN/Infinity, otherwise use the decoded value.  (The `except` branch of the
source is unreachable here: the read at fixed offset 12 of the 32-byte DB51
buffer cannot raise.) -/
def seedSoC (w : ℕ) (target : ℚ) : ℚ := if f32IsNaNOrInf w then target else f32ToRat w

end S7

namespace Modbus

/-- Model of `random.uniform(a, b)` with the unit draw `r` made explicit:
`a + (b - a) * r`, `r ∈ [0, 1]`. -/
def pyUniform (a b r : ℚ) : ℚ := a + (b - a) * r

/-- Python `int(q)`: truncation toward zero. -/
def pyInt (q : ℚ) : ℤ := q.num.tdiv (q.den : ℤ)

/-- Line 19: `tensao = int(random.uniform(218.0, 222.0) * 10)`. -/
def tensao (r : ℚ) : ℤ := pyInt (pyUniform 218 222 r * 10)

/-- Line 20: `corrente = int(random.uniform(4.5, 8.0) * 10)`. -/
def corrente (r : ℚ) : ℤ := pyInt (pyUniform 4.5 8 r * 10)

/-- Line 21: `temperatura = int(random.uniform(18.0, 25.0) * 10)`. -/
def temperatura (r : ℚ) : ℤ := pyInt (pyUniform 18 25 r * 10)

/-- Line 22: `umidade = int(random.uniform(40.0, 60.0) * 10)`. -/
def umidade (r : ℚ) : ℤ := pyInt (pyUniform 40 60 r * 10)

/-- Line 23: `consumo = int(random.uniform(1000, 1800))`. -/
def consumo (r : ℚ) : ℤ := pyInt (pyUniform 1000 1800 r)

theorem pyInt_intCast (n : ℤ) : pyInt (n : ℚ) = n := by
  simp [pyInt, Int.tdiv_one]

end Modbus

namespace S7

/-! Helper lemmas about `_clamp` and the aggregator steps. -/

theorem le_clamp (v lo hi : ℚ) : lo ≤ _clamp v lo hi := le_max_left _ _

theorem clamp_le (v lo hi : ℚ) (h : lo ≤ hi) : _clamp v lo hi ≤ hi :=
  max_le h (min_le_left _ _)

theorem pv_nonneg (M : MathLib) (now : ℚ) : 0 ≤ pv M now := le_clamp _ _ _

theorem pv_le (M : MathLib) (now : ℚ) : pv M now ≤ 4500 := clamp_le _ _ _ (by norm_num)

theorem dtOf_nonneg (now last : ℚ) : 0 ≤ dtOf now last := le_max_left _ _

theorem cycleSOf_pos (cycleMs : ℤ) : 0 < cycleSOf cycleMs :=
  lt_of_lt_of_le (by norm_num) (le_max_left _ _)

theorem socSpeed_nonneg (c : ℚ) (hc : 0 ≤ c) : 0 ≤ socSpeed c := by
  unfold socSpeed; positivity

theorem socTarget_mem (v : ℚ) : 0 ≤ socTarget v ∧ socTarget v ≤ 100 :=
  ⟨le_clamp _ _ _, clamp_le _ _ _ (by norm_num)⟩

theorem socStep_mem (speed s t : ℚ) (hsp : 0 ≤ speed)
    (hs0 : 0 ≤ s) (hs1 : s ≤ 100) (ht0 : 0 ≤ t) (ht1 : t ≤ 100) :
    0 ≤ socStep speed s t ∧ socStep speed s t ≤ 100 := by
  unfold socStep _clamp
  rcases max_cases (-speed) (min speed (t - s)) with ⟨h1, h2⟩ | ⟨h1, h2⟩ <;>
    rcases min_cases speed (t - s) with ⟨h3, h4⟩ | ⟨h3, h4⟩ <;>
    constructor <;> linarith

theorem socStep_slew (speed s t : ℚ) (hsp : 0 ≤ speed) :
    |socStep speed s t - s| ≤ speed := by
  unfold socStep _clamp
  rw [add_sub_cancel_left, abs_le]
  refine ⟨le_max_left _ _, max_le (by linarith) (min_le_left _ _)⟩

theorem socSeq_invariant (speed : ℚ) (hsp : 0 ≤ speed) :
    ∀ (tgts : List ℚ) (s : ℚ), 0 ≤ s → s ≤ 100 →
      (∀ t ∈ tgts, 0 ≤ t ∧ t ≤ 100) →
      (∀ x ∈ socSeq speed s tgts, 0 ≤ x ∧ x ≤ 100) ∧ SlewOk speed (socSeq speed s tgts)
  | [], s, hs0, hs1, _ => by
      refine ⟨fun x hx => ?_, trivial⟩
      simp only [socSeq, List.mem_singleton] at hx
      exact hx ▸ ⟨hs0, hs1⟩
  | t :: ts, s, hs0, hs1, htg => by
      have ht := htg t (List.mem_cons_self t ts)
      have hstep := socStep_mem speed s t hsp hs0 hs1 ht.1 ht.2
      have ih := socSeq_invariant speed hsp ts (socStep speed s t) hstep.1 hstep.2
        (fun u hu => htg u (List.mem_cons_of_mem _ hu))
      refine ⟨fun x hx => ?_, ?_⟩
      · simp only [socSeq, List.mem_cons] at hx
        rcases hx with rfl | hx
        · exact ⟨hs0, hs1⟩
        · exact ih.1 x hx
      · have hhead : ∃ rest, socSeq speed (socStep speed s t) ts = socStep speed s t :: rest := by
          cases ts with
          | nil => exact ⟨[], rfl⟩
          | cons u us => exact ⟨socSeq speed (socStep speed (socStep speed s t) u) us, rfl⟩
        obtain ⟨rest, hrest⟩ := hhead
        show SlewOk speed (s :: socSeq speed (socStep speed s t) ts)
        rw [hrest]
        exact ⟨by simpa using socStep_slew speed s t hsp, hrest ▸ ih.2⟩

theorem yieldRun_le (M : MathLib) :
    ∀ (ts : List ℚ) (last y : ℚ), y ≤ yieldRun M last y ts
  | [], _, _ => le_refl _
  | now :: rest, last, y => by
      have h1 : y ≤ yieldStep y (pv M now) (dtOf now last) := by
        unfold yieldStep
        have := mul_nonneg (pv_nonneg M now) (dtOf_nonneg now last)
        linarith [div_nonneg this (by norm_num : (0:ℚ) ≤ 3600000)]
      exact le_trans h1 (yieldRun_le M rest now _)

theorem maxStep_ge (m p : ℚ) : m ≤ maxStep m p := by
  unfold maxStep; split <;> linarith

theorem maxRun_le (M : MathLib) :
    ∀ (ts : List ℚ) (m : ℚ), m ≤ maxRun M m ts
  | [], _ => le_refl _
  | now :: rest, m =>
      le_trans (maxStep_ge m (pv M now)) (maxRun_le M rest _)

/-! Claim theorems. -/

/-- C2: along any sequence of cycles — any configured cycle interval, any
battery-voltage inputs (hence any reachable sequence of targets), any
starting value in range — every state-of-charge value written stays in
[0, 100] and consecutive values differ by at most
`soc_speed = 0.02 * (cycle_s / 0.5)`. -/
theorem soc_bounded_and_slew_limited (cycleMs : ℤ) (s0 : ℚ)
    (h0 : 0 ≤ s0) (h1 : s0 ≤ 100) (vbats : List ℚ) :
    (∀ s ∈ socSeq (socSpeed (cycleSOf cycleMs)) s0 (vbats.map socTarget),
        0 ≤ s ∧ s ≤ 100) ∧
      SlewOk (socSpeed (cycleSOf cycleMs)) (socSeq (socSpeed (cycleSOf cycleMs)) s0 (vbats.map socTarget)) := by
  have hsp : 0 ≤ socSpeed (cycleSOf cycleMs) :=
    socSpeed_nonneg _ (le_of_lt (cycleSOf_pos cycleMs))
  exact socSeq_invariant _ hsp (vbats.map socTarget) s0 h0 h1
    (by intro t ht
        obtain ⟨v, _, rfl⟩ := List.mem_map.mp ht
        exact socTarget_mem v)

/-- Witness for C2: the default 500 ms interval, seed 0, one cycle at
battery voltage 52.5 — the trajectory [0, 0.02] is in range and obeys the
0.02 slew limit. -/
theorem soc_bounded_and_slew_limited_witness :
    (∀ s ∈ socSeq (socSpeed (cycleSOf 500)) 0 ([(52.5 : ℚ)].map socTarget),
        0 ≤ s ∧ s ≤ 100) ∧
      SlewOk (socSpeed (cycleSOf 500)) (socSeq (socSpeed (cycleSOf 500)) 0 ([(52.5 : ℚ)].map socTarget)) :=
  soc_bounded_and_slew_limited 500 0 (by norm_num) (by norm_num) [(52.5 : ℚ)]

/-- C6: the yield-energy accumulator never decreases across any sequence of
cycles; each cycle adds exactly `pv * dt / 3_600_000` with `dt` the
non-negative clock delta `max(0, now - last_ts)`; and a cycle with `dt = 0`
leaves the accumulator exactly unchanged. -/
theorem yield_energy_accumulator (M : MathLib) (last y now : ℚ) (ts : List ℚ) :
    y ≤ yieldRun M last y ts ∧
      yieldStep y (pv M now) (dtOf now last) = y + pv M now * dtOf now last / 3600000 ∧
      0 ≤ dtOf now last ∧
      yieldStep y (pv M now) 0 = y := by
  refine ⟨yieldRun_le M ts last y, rfl, dtOf_nonneg now last, ?_⟩
  unfold yieldStep; ring

/-- C7: `max_power_today` starts at 0, the update of lines 162-163 computes
exactly `max(max_power_today, pv)`, and the running maximum never decreases
across any sequence of cycles. -/
theorem max_power_today_monotone (M : MathLib) (m p : ℚ) (ts : List ℚ) :
    initState.max_power_today = 0 ∧
      maxStep m p = max m p ∧
      m ≤ maxRun M m ts := by
  refine ⟨rfl, ?_, maxRun_le M ts m⟩
  unfold maxStep
  rcases le_or_lt p m with h | h
  · rw [if_neg (not_lt.mpr h), max_eq_left h]
  · rw [if_pos h, max_eq_right h.le]

/-! Byte-buffer lemmas. -/

theorem byteAt_set_ne (l : List ℕ) (i j a : ℕ) (h : i ≠ j) :
    byteAt (l.set i a) j = byteAt l j := by
  unfold byteAt
  rw [List.getElem?_set_ne h]

theorem byteAt_set_eq (l : List ℕ) (i a : ℕ) (h : i < l.length) :
    byteAt (l.set i a) i = a := by
  unfold byteAt
  rw [List.getElem?_set_eq_of_lt a h]
  rfl

theorem length_write (buf : List ℕ) (o w : ℕ) :
    (_write_real_be buf o w).length = buf.length := by
  simp [_write_real_be]

theorem byteAt_write_self (buf : List ℕ) (off w : ℕ) (h : off + 4 ≤ buf.length) :
    byteAt (_write_real_be buf off w) off = w / 2 ^ 24 % 256 ∧
      byteAt (_write_real_be buf off w) (off + 1) = w / 2 ^ 16 % 256 ∧
      byteAt (_write_real_be buf off w) (off + 2) = w / 2 ^ 8 % 256 ∧
      byteAt (_write_real_be buf off w) (off + 3) = w % 256 := by
  unfold _write_real_be
  refine ⟨?_, ?_, ?_, ?_⟩
  · rw [byteAt_set_ne _ _ _ _ (by omega), byteAt_set_ne _ _ _ _ (by omega),
      byteAt_set_ne _ _ _ _ (by omega), byteAt_set_eq _ _ _ (by omega)]
  · rw [byteAt_set_ne _ _ _ _ (by omega), byteAt_set_ne _ _ _ _ (by omega),
      byteAt_set_eq _ _ _ (by simp only [List.length_set]; omega)]
  · rw [byteAt_set_ne _ _ _ _ (by omega),
      byteAt_set_eq _ _ _ (by simp only [List.length_set]; omega)]
  · rw [byteAt_set_eq _ _ _ (by simp only [List.length_set]; omega)]

theorem byteAt_write_other (buf : List ℕ) (off w i : ℕ) (h : i < off ∨ off + 4 ≤ i) :
    byteAt (_write_real_be buf off w) i = byteAt buf i := by
  unfold _write_real_be
  rw [byteAt_set_ne _ _ _ _ (by omega), byteAt_set_ne _ _ _ _ (by omega),
    byteAt_set_ne _ _ _ _ (by omega), byteAt_set_ne _ _ _ _ (by omega)]

theorem readF32Word_write (buf : List ℕ) (off w : ℕ)
    (hw : w < 2 ^ 32) (hoff : off + 4 ≤ buf.length) :
    readF32Word (_write_real_be buf off w) off = w := by
  obtain ⟨h0, h1, h2, h3⟩ := byteAt_write_self buf off w hoff
  unfold readF32Word
  rw [h0, h1, h2, h3]
  omega

/-- C8: for every 32-bit pattern `w` and every in-bounds offset, writing the
four big-endian bytes of `w` and reading a big-endian 32-bit float back at
the same offset recovers exactly `w` — hence exactly the same decoded
value. -/
theorem float_write_read_roundtrip (buf : List ℕ) (off w : ℕ)
    (hw : w < 2 ^ 32) (hoff : off + 4 ≤ buf.length) :
    readF32Word (_write_real_be buf off w) off = w ∧
      f32ToRat (readF32Word (_write_real_be buf off w) off) = f32ToRat w := by
  have hword := readF32Word_write buf off w hw hoff
  exact ⟨hword, by rw [hword]⟩

/-- Witness for C8: in a fresh 16-byte block, writing the pattern of 1.0f
(0x3F800000) at offset 4 and reading back at offset 4 recovers it. -/
theorem float_write_read_roundtrip_witness :
    readF32Word (_write_real_be (List.replicate 16 0) 4 1065353216) 4 = 1065353216 ∧
      f32ToRat (readF32Word (_write_real_be (List.replicate 16 0) 4 1065353216) 4) =
        f32ToRat 1065353216 :=
  float_write_read_roundtrip (List.replicate 16 0) 4 1065353216
    (by norm_num) (by simp)

/-- C9: a 4-byte big-endian float write at offset `o2` changes no byte
outside `[o2, o2+4)` and never changes the block's length; consequently a
tag at offset `o1` whose 4-byte span does not overlap the span of `o2`
reads back exactly the same word after the write. -/
theorem write_affects_only_its_span (buf : List ℕ) (o1 o2 w i : ℕ)
    (hi : i < o2 ∨ o2 + 4 ≤ i) (hdisj : o1 + 4 ≤ o2 ∨ o2 + 4 ≤ o1) :
    byteAt (_write_real_be buf o2 w) i = byteAt buf i ∧
      (_write_real_be buf o2 w).length = buf.length ∧
      readF32Word (_write_real_be buf o2 w) o1 = readF32Word buf o1 := by
  refine ⟨byteAt_write_other buf o2 w i hi, length_write buf o2 w, ?_⟩
  unfold readF32Word
  rw [byteAt_write_other _ _ _ _ (by omega), byteAt_write_other _ _ _ _ (by omega),
    byteAt_write_other _ _ _ _ (by omega), byteAt_write_other _ _ _ _ (by omega)]

/-- Witness for C9: in the freshly registered DB51 block, writing the
`Carga_Bateria` tag (offset 12) leaves byte 0 and the whole `Current` tag
(offset 0) untouched. -/
theorem write_affects_only_its_span_witness :
    byteAt (_write_real_be (_register_db db51Size) 12 1065353216) 0 =
        byteAt (_register_db db51Size) 0 ∧
      (_write_real_be (_register_db db51Size) 12 1065353216).length =
        (_register_db db51Size).length ∧
      readF32Word (_write_real_be (_register_db db51Size) 12 1065353216) 0 =
        readF32Word (_register_db db51Size) 0 :=
  write_affects_only_its_span (_register_db db51Size) 0 12 1065353216 0
    (by norm_num) (by norm_num)

theorem f32ToRat_zero : f32ToRat 0 = 0 := by
  norm_num [f32ToRat, f32Sign, f32Exp, f32Frac]

theorem readF32Word_register_db51 : readF32Word (_register_db db51Size) 12 = 0 := by
  decide

/-- C1 counterexample: on the very first cycle the DB51 block was never
written, yet the decode of its zero-initialized bytes at offset 12 yields
the finite value 0.0, so the seed is 0.0 — not the computed target (here
`socTarget 52.5 = 450/7 ≠ 0`).  The claim's "also whenever the block was
never written" branch does not exist in the code. -/
theorem soc_seed_counterexample :
    seedSoC (readF32Word (_register_db db51Size) 12) (socTarget 52.5) = 0 ∧
      socTarget (52.5 : ℚ) ≠ 0 := by
  constructor
  · rw [readF32Word_register_db51]
    show seedSoC 0 _ = 0
    rw [seedSoC, if_neg (by decide), f32ToRat_zero]
  · norm_num [socTarget, _clamp]

/-- C1 amended: the seed logic substitutes the computed target exactly when
the decoded bytes are NaN or Infinity (exponent field all ones); in every
other case — including the never-written, zero-filled block, which decodes
to 0.0 — the decoded value itself is the seed. -/
theorem soc_seed_amended (w : ℕ) (target : ℚ) (buf : List ℕ) :
    (f32IsNaNOrInf w = true → seedSoC w target = target) ∧
      (f32IsNaNOrInf w = false → seedSoC w target = f32ToRat w) ∧
      (w < 2 ^ 32 → 12 + 4 ≤ buf.length → f32IsNaNOrInf w = false →
        seedSoC (readF32Word (_write_real_be buf 12 w) 12) target = f32ToRat w) ∧
      seedSoC (readF32Word (_register_db db51Size) 12) target = 0 := by
  refine ⟨fun h => by rw [seedSoC, if_pos h], fun h => by rw [seedSoC, if_neg (by simp [h])],
    fun hw hlen h => ?_, ?_⟩
  · rw [readF32Word_write buf 12 w hw hlen, seedSoC, if_neg (by simp [h])]
  · rw [readF32Word_register_db51]
    show seedSoC 0 _ = 0
    rw [seedSoC, if_neg (by decide), f32ToRat_zero]

/-- Witness for the amended C1: the +Infinity pattern 0x7F800000 is replaced
by the target 5; the finite pattern of 1.0f written at offset 12 and read
back seeds with its decoded value. -/
theorem soc_seed_amended_witness :
    seedSoC 2139095040 5 = 5 ∧
      seedSoC (readF32Word (_write_real_be (List.replicate 32 0) 12 1065353216) 12) 5 =
        f32ToRat 1065353216 :=
  ⟨(soc_seed_amended 2139095040 5 []).1 (by decide),
    (soc_seed_amended 1065353216 5 (List.replicate 32 0)).2.2.1 (by norm_num) (by simp)
      (by decide)⟩

/-- C3 counterexample: the configured cycle interval receives no validation
at all — line 123 is a total clamp, evaluated only after every block has
already been registered (lines 115-116).  At the non-positive inputs 0 and
-100 ms it produces the valid 50 ms cycle time instead of failing. -/
theorem cycle_interval_counterexample :
    cycleSOf 0 = 0.05 ∧ cycleSOf (-100) = 0.05 ∧ (0 : ℚ) < cycleSOf 0 := by
  refine ⟨?_, ?_, cycleSOf_pos 0⟩ <;> norm_num [cycleSOf]

/-- C3 amended: the core never rejects a cycle interval; every interval of
at most 50 ms — non-positive values included — is silently clamped up to
the 0.05 s minimum, and intervals of at least 50 ms are used as given. -/
theorem cycle_interval_clamped (cycleMs : ℤ) :
    0.05 ≤ cycleSOf cycleMs ∧
      (cycleMs ≤ 50 → cycleSOf cycleMs = 0.05) ∧
      (50 ≤ cycleMs → cycleSOf cycleMs = (cycleMs : ℚ) / 1000) := by
  refine ⟨le_max_left _ _, fun h => ?_, fun h => ?_⟩
  · have : (cycleMs : ℚ) ≤ 50 := by exact_mod_cast h
    rw [cycleSOf, max_eq_left (by linarith)]
  · have : (50 : ℚ) ≤ (cycleMs : ℚ) := by exact_mod_cast h
    rw [cycleSOf, max_eq_right (by linarith)]

/-- Witness for the amended C3: 0 ms clamps to the minimum, 500 ms is used
as given. -/
theorem cycle_interval_clamped_witness :
    cycleSOf 0 = 0.05 ∧ cycleSOf 500 = (500 : ℚ) / 1000 :=
  ⟨(cycle_interval_clamped 0).2.1 (by norm_num),
    (cycle_interval_clamped 500).2.2 (by norm_num)⟩

/-- C10: with `math.sin` bounded by 1 in absolute value, the three voltages
lie in the claimed ranges [610, 630], [218, 222] and [51.7, 53.3], so every
divisor of the derived-current generators is strictly greater than 1 and
the `max(voltage, 1.0)` guard returns the voltage unchanged — its fallback
is unreachable. -/
theorem current_divisors_exceed_one (M : MathLib) (now : ℚ) (hM : sinBounded M) :
    (610 ≤ vbus M now ∧ vbus M now ≤ 630 ∧ 1 < vbus M now ∧
        max (vbus M now) 1 = vbus M now) ∧
      (218 ≤ vout M now ∧ vout M now ≤ 222 ∧ 1 < vout M now ∧
        max (vout M now) 1 = vout M now) ∧
      (51.7 ≤ vbat M now ∧ vbat M now ≤ 53.3 ∧ 1 < vbat M now ∧
        max (vbat M now) 1 = vbat M now) := by
  obtain ⟨hb1, hb2⟩ := abs_le.mp (hM (2 * M.pi * now / 25))
  obtain ⟨ho1, ho2⟩ := abs_le.mp (hM (2 * M.pi * now / 20))
  obtain ⟨ha1, ha2⟩ := abs_le.mp (hM (2 * M.pi * now / 40))
  unfold vbus vout vbat
  refine ⟨⟨by linarith, by linarith, by linarith, max_eq_left (by linarith)⟩,
    ⟨by linarith, by linarith, by linarith, max_eq_left (by linarith)⟩,
    ⟨by norm_num; linarith, by norm_num; linarith, by linarith,
      max_eq_left (by linarith)⟩⟩

/-- Witness for C10 at the zero sine function and time 0. -/
theorem current_divisors_exceed_one_witness :
    (610 ≤ vbus ⟨fun _ => 0, 0⟩ 0 ∧ vbus ⟨fun _ => 0, 0⟩ 0 ≤ 630 ∧
        1 < vbus ⟨fun _ => 0, 0⟩ 0 ∧ max (vbus ⟨fun _ => 0, 0⟩ 0) 1 = vbus ⟨fun _ => 0, 0⟩ 0) ∧
      (218 ≤ vout ⟨fun _ => 0, 0⟩ 0 ∧ vout ⟨fun _ => 0, 0⟩ 0 ≤ 222 ∧
        1 < vout ⟨fun _ => 0, 0⟩ 0 ∧ max (vout ⟨fun _ => 0, 0⟩ 0) 1 = vout ⟨fun _ => 0, 0⟩ 0) ∧
      (51.7 ≤ vbat ⟨fun _ => 0, 0⟩ 0 ∧ vbat ⟨fun _ => 0, 0⟩ 0 ≤ 53.3 ∧
        1 < vbat ⟨fun _ => 0, 0⟩ 0 ∧ max (vbat ⟨fun _ => 0, 0⟩ 0) 1 = vbat ⟨fun _ => 0, 0⟩ 0) :=
  current_divisors_exceed_one ⟨fun _ => 0, 0⟩ 0 (fun x => by norm_num)

/-- C5 counterexample: the Modbus simulator's voltage register value is a
function of the random draw, not of time — two updates at the same instant
with the legal draws 0 and 1 produce 2180 and 2220.  No generator of that
simulator is a deterministic function of `t` and fixed parameters. -/
theorem modbus_generator_not_deterministic :
    ((0 : ℚ) ≤ 0 ∧ (0 : ℚ) ≤ 1) ∧ ((0 : ℚ) ≤ 1 ∧ (1 : ℚ) ≤ 1) ∧
      Modbus.tensao 0 = 2180 ∧ Modbus.tensao 1 = 2220 ∧
      Modbus.tensao 0 ≠ Modbus.tensao 1 := by
  have h0 : Modbus.tensao 0 = 2180 := by
    have h : Modbus.pyUniform 218 222 0 * 10 = ((2180 : ℤ) : ℚ) := by
      norm_num [Modbus.pyUniform]
    rw [Modbus.tensao, h, Modbus.pyInt_intCast]
  have h1 : Modbus.tensao 1 = 2220 := by
    have h : Modbus.pyUniform 218 222 1 * 10 = ((2220 : ℤ) : ℚ) := by
      norm_num [Modbus.pyUniform]
    rw [Modbus.tensao, h, Modbus.pyInt_intCast]
  exact ⟨by norm_num, by norm_num, h0, h1, by rw [h0, h1]; decide⟩

/-- C5 amended: the S7 simulator's generators are pure functions of the
time `now` and the math parameters (`sin`, `pi`): two cycle evaluations
with identical parameters and identical inputs produce identical outputs
for every written tag.  (The Modbus simulator's generators are random draws
independent of `t`, deterministic only given the draw.) -/
theorem s7_generators_deterministic (M1 M2 : MathLib) (cycle_s now dt : ℚ)
    (st : SimState) (hsin : M1.sin = M2.sin) (hpi : M1.pi = M2.pi) :
    cycleStep M1 cycle_s now dt st = cycleStep M2 cycle_s now dt st := by
  cases M1
  cases M2
  dsimp only at hsin hpi
  subst hsin
  subst hpi
  rfl

/-- Witness for the amended C5: two evaluations with the same math
parameters at time 0 agree. -/
theorem s7_generators_deterministic_witness :
    cycleStep ⟨fun _ => 0, 3⟩ 0.5 0 0 initState =
      cycleStep ⟨fun _ => 0, 3⟩ 0.5 0 0 initState :=
  s7_generators_deterministic ⟨fun _ => 0, 3⟩ ⟨fun _ => 0, 3⟩ 0.5 0 0 initState rfl rfl

/-- C4 counterexample: had every value written to a block passed through
the shared clamp with fixed bounds, the written `Yield_Diario` value would
lie in a fixed interval for all cycle inputs.  It does not: starting from
the startup state, with the constant-one sine and a large enough wall-clock
delta the first cycle already writes an arbitrarily large yield value, so
the claim that no value reaches a block without going through `_clamp` is
false (likewise `vbat`, `vbus`, `vout`, `ibus`, `ir`, `is_`, `it`, `il1n`,
`il2n`, `il3n`, `psys` and `max_power_today` are written unclamped). -/
theorem clamp_all_outputs_counterexample :
    ¬ ∃ lo hi : ℚ, ∀ (M : MathLib) (cycle_s now dt : ℚ),
        sinBounded M → 0 ≤ dt →
        lo ≤ (cycleStep M cycle_s now dt initState).yield_kwh ∧
          (cycleStep M cycle_s now dt initState).yield_kwh ≤ hi := by
  rintro ⟨lo, hi, h⟩
  have hM : sinBounded ⟨fun _ => 1, 0⟩ := fun x => by norm_num
  have hdt : (0 : ℚ) ≤ 3600000 * (max hi 0 + 1) / 3500 := by
    have : (0 : ℚ) ≤ max hi 0 := le_max_right _ _
    positivity
  have h2 := (h ⟨fun _ => 1, 0⟩ 1 0 (3600000 * (max hi 0 + 1) / 3500) hM hdt).2
  have hval : (cycleStep ⟨fun _ => 1, 0⟩ 1 0 (3600000 * (max hi 0 + 1) / 3500)
      initState).yield_kwh = max hi 0 + 1 := by
    show yieldStep 0 (pv ⟨fun _ => 1, 0⟩ 0) (3600000 * (max hi 0 + 1) / 3500) = _
    have hpv : pv ⟨fun _ => 1, 0⟩ 0 = 3500 := by
      show _clamp (3500 * ((1 : ℚ) * 0.5 + 0.5)) 0 4500 = 3500
      norm_num [_clamp]
    rw [yieldStep, hpv]
    ring
  rw [hval] at h2
  have : hi ≤ max hi 0 := le_max_left _ _
  linarith

/-- C4 amended: only `pv`, `iout`, `ibat`, `in_`, the SoC slew increment
and the load term inside `psys` pass through `_clamp`; those outputs land
in the clamp intervals every cycle, while the remaining tags are encoded
without a final clamp. -/
theorem clamped_outputs_within_bounds (M : MathLib) (cycle_s now dt : ℚ) (st : SimState) :
    (0 ≤ (cycleStep M cycle_s now dt st).pv ∧ (cycleStep M cycle_s now dt st).pv ≤ 4500) ∧
      (0 ≤ (cycleStep M cycle_s now dt st).iout ∧ (cycleStep M cycle_s now dt st).iout ≤ 25) ∧
      (-80 ≤ (cycleStep M cycle_s now dt st).ibat ∧ (cycleStep M cycle_s now dt st).ibat ≤ 80) ∧
      (0 ≤ (cycleStep M cycle_s now dt st).in_ ∧ (cycleStep M cycle_s now dt st).in_ ≤ 5) :=
  ⟨⟨pv_nonneg M now, pv_le M now⟩,
    ⟨le_clamp _ _ _, clamp_le _ _ _ (by norm_num)⟩,
    ⟨le_clamp _ _ _, clamp_le _ _ _ (by norm_num)⟩,
    ⟨le_clamp _ _ _, clamp_le _ _ _ (by norm_num)⟩⟩

end S7

end Hipervisorio
